import Mathlib

/-!
Verification of the fbad distributed Docker-build dispatcher.

Shallow embedding of the wire protocol, the per-connection state machines of
`fbad/server.py` and `fbad/client.py`, the `Image` / `Project` data model of
`fbad/image.py` and `fbad/project.py`, and the client-side dispatch logic of
`fbad/project.py`.  Byte strings on the wire are modelled as `List Nat`
(each entry a byte value); Python strings in the data model are modelled as
`List Char`.
-/

/-! ## SHA-256 (used by the authentication step of `server.py` / `client.py`)

A direct executable embedding of SHA-256 over byte lists, FIPS 180-4.
All words are `Nat` reduced modulo `2 ^ 32`.
-/

/-- Truncate to a 32-bit word. -/
def w32 (n : Nat) : Nat := n % 4294967296

/-- Rotate a 32-bit word right by `n`. -/
def rotr (n x : Nat) : Nat := w32 ((x >>> n) ||| (x <<< (32 - n)))

/-- 32-bit bitwise complement. -/
def compl32 (x : Nat) : Nat := 4294967295 - x

def ch (x y z : Nat) : Nat := (x &&& y) ^^^ (compl32 x &&& z)

def maj (x y z : Nat) : Nat := (x &&& y) ^^^ (x &&& z) ^^^ (y &&& z)

def bigSigma0 (x : Nat) : Nat := rotr 2 x ^^^ rotr 13 x ^^^ rotr 22 x

def bigSigma1 (x : Nat) : Nat := rotr 6 x ^^^ rotr 11 x ^^^ rotr 25 x

def smallSigma0 (x : Nat) : Nat := rotr 7 x ^^^ rotr 18 x ^^^ (x >>> 3)

def smallSigma1 (x : Nat) : Nat := rotr 17 x ^^^ rotr 19 x ^^^ (x >>> 10)

/-- The 64 SHA-256 round constants. -/
def sha256K : List Nat :=
  [1116352408, 1899447441, 3049323471, 3921009573, 961987163,
   1508970993, 2453635748, 2870763221, 3624381080, 310598401,
   607225278, 1426881987, 1925078388, 2162078206, 2614888103,
   3248222580, 3835390401, 4022224774, 264347078, 604807628,
   770255983, 1249150122, 1555081692, 1996064986, 2554220882,
   2821834349, 2952996808, 3210313671, 3336571891, 3584528711,
   113926993, 338241895, 666307205, 773529912, 1294757372,
   1396182291, 1695183700, 1986661051, 2177026350, 2456956037,
   2730485921, 2820302411, 3259730800, 3345764771, 3516065817,
   3600352804, 4094571909, 275423344, 430227734, 506948616,
   659060556, 883997877, 958139571, 1322822218, 1537002063,
   1747873779, 1955562222, 2024104815, 2227730452, 2361852424,
   2428436474, 2756734187, 3204031479, 3329325298]

/-- The initial SHA-256 hash state. -/
def sha256H0 : List Nat :=
  [1779033703, 3144134277, 1013904242, 2773480762,
   1359893119, 2600822924, 528734635, 1541459225]

/-- Big-endian byte encoding of `v` in `n` bytes. -/
def toBytesBE : Nat → Nat → List Nat
  | 0, _ => []
  | m + 1, v => ((v >>> (8 * m)) % 256) :: toBytesBE m v

/-- Group bytes into big-endian 32-bit words. -/
def bytesToWords : List Nat → List Nat
  | b0 :: b1 :: b2 :: b3 :: rest =>
      (b0 * 16777216 + b1 * 65536 + b2 * 256 + b3) :: bytesToWords rest
  | _ => []

/-- Extend a 16-word message schedule by `n` further words. -/
def extendSchedule : List Nat → Nat → List Nat
  | w, 0 => w
  | w, n + 1 =>
      let t := w.length
      let wt := w32 (smallSigma1 (w.getD (t - 2) 0) + w.getD (t - 7) 0 +
                     smallSigma0 (w.getD (t - 15) 0) + w.getD (t - 16) 0)
      extendSchedule (w ++ [wt]) n

/-- One SHA-256 compression round on the 8-word working state. -/
def sha256Round (st : List Nat) (kt wt : Nat) : List Nat :=
  match st with
  | [a, b, c, d, e, f, g, h] =>
      let t1 := w32 (h + bigSigma1 e + ch e f g + kt + wt)
      let t2 := w32 (bigSigma0 a + maj a b c)
      [w32 (t1 + t2), a, b, c, w32 (d + t1), e, f, g]
  | other => other

/-- Process one 64-byte block, updating the 8-word hash state. -/
def sha256Block (h : List Nat) (block : List Nat) : List Nat :=
  let w := extendSchedule (bytesToWords block) 48
  let fin := (sha256K.zip w).foldl (fun s p => sha256Round s p.1 p.2) h
  (h.zip fin).map (fun p => w32 (p.1 + p.2))

/-- Process `n` consecutive 64-byte blocks. -/
def sha256Blocks : Nat → List Nat → List Nat → List Nat
  | 0, h, _ => h
  | n + 1, h, bytes => sha256Blocks n (sha256Block h (bytes.take 64)) (bytes.drop 64)

/-- SHA-256 padding: append 0x80, zeros, and the 64-bit big-endian bit length. -/
def sha256Pad (msg : List Nat) : List Nat :=
  msg ++ 128 :: List.replicate ((119 - msg.length % 64) % 64) 0 ++ toBytesBE 8 (8 * msg.length)

/-- SHA-256 digest of a byte list, as a 32-byte list
(`hashlib.sha256(data).digest()`). -/
def sha256 (msg : List Nat) : List Nat :=
  let padded := sha256Pad msg
  ((sha256Blocks (padded.length / 64) sha256H0 padded).map (toBytesBE 4)).flatten

/-! ## Protocol constants (`fbad/constants.py`)

The code is Python 2, so string literals are byte strings; we model them as
lists of byte values.  `COM_VERSION = "0.2"`, `AUTH_SEED_LENGTH = 16`,
`MESSAGE_PREFIX_CONTINUE` is the byte 0x00 and `MESSAGE_PREFIX_END` the
byte 0x01.
-/

def COM_VERSION : List Nat := [48, 46, 50]

def AUTH_SEED_LENGTH : Nat := 16

def MSG_CONTINUE_BYTE : Nat := 0

def MSG_END_BYTE : Nat := 1

/-- The single-byte reply `"O"`. -/
def strO : List Nat := [79]

/-- The single-byte reply `"E"`. -/
def strE : List Nat := [69]

/-- The single-byte reply `"F"`. -/
def strF : List Nat := [70]

/-- The byte `"A"`, leading byte of the auth-challenge reply. -/
def byteA : Nat := 65

/-! ## The Image model (`fbad/image.py`)

Python strings in the data model are modelled as `List Char`.
-/

/-- The trailing-slash trimming loop of `Image.__init__`
(`while self.path.endswith("/"): self.path = self.path[:-1]`):
drop the maximal run of `'/'` characters from the end. -/
def trimSlashes (p : List Char) : List Char :=
  (p.reverse.dropWhile (fun c => c == '/')).reverse

/-- `os.path.basename`: the segment after the last `'/'`
(the whole string when it has no `'/'`). -/
def basename (p : List Char) : List Char :=
  (p.reverse.takeWhile (fun c => !(c == '/'))).reverse

/-- An `Image()` instance: the six fields stored by `Image.__init__`. -/
structure Image where
  path : List Char
  name : List Char
  tag : List Char
  dockerfile : List Char
  buildpath : List Char
  preexec_command : Option (List (List Char))
deriving DecidableEq

/-- `Image.__init__`: trim trailing slashes from `path`; default `name` to
`os.path.basename(path)`, `tag` to `name`, `buildpath` to `path`;
store `dockerfile` and `preexec_command` as given.  Optional arguments are
`none` when the Python caller omits them. -/
def Image.init (path : List Char) (name : Option (List Char)) (tag : Option (List Char))
    (dockerfile : List Char) (buildpath : Option (List Char))
    (preexec_command : Option (List (List Char))) : Image :=
  let p := trimSlashes path
  let n := match name with
    | some n => n
    | none => basename p
  let t := match tag with
    | some t => t
    | none => n
  let bp := match buildpath with
    | some bp => bp
    | none => p
  ⟨p, n, t, dockerfile, bp, preexec_command⟩

/-- The JSON object written by `Image.dumpus`: a dict with the six fields
under their fixed keys.  JSON encoding of strings, lists and null is
faithful, so the serialized form is modelled as the key-value record
itself. -/
structure ImageJson where
  path : List Char
  name : List Char
  tag : List Char
  dockerfile : List Char
  buildpath : List Char
  preexec_command : Option (List (List Char))
deriving DecidableEq

/-- `Image.dumpus`: serialize the six stored fields. -/
def Image.dumpus (i : Image) : ImageJson :=
  ⟨i.path, i.name, i.tag, i.dockerfile, i.buildpath, i.preexec_command⟩

/-- `Image.loadus`: parse the JSON object and call `cls(**jdata)`,
i.e. the constructor with every argument passed explicitly. -/
def Image.loadus (j : ImageJson) : Image :=
  Image.init j.path (some j.name) (some j.tag) j.dockerfile (some j.buildpath) j.preexec_command

/-! ## The server protocol FSM (`fbad/server.py`, `FBADServerProtocol`) -/

namespace Server

def STATE_IGNORE : Int := -1

def STATE_WAIT_VERSION : Int := 0

def STATE_AUTH : Int := 1

def STATE_READY : Int := 2

def STATE_FILE_RECEIVE : Int := 4

def STATE_BUILDING : Int := 5

/-- The server factory configuration (`FBADServerFactory.password`) together
with the environment's randomness source (`os.urandom`, called by
`get_random_bytes`). -/
structure Config where
  password : Option (List Nat)
  urandom : Nat → List Nat

/-- Per-connection mutable state of `FBADServerProtocol`.
`challenge` is the attribute set by `handle_version`; `srare` is the
attribute created by the misspelled assignment `self.srare = ...` in
`handle_command` (it is distinct from `state` and never read).
`outfOpen` models whether `self.outf` is an open file, and `recvFired`
whether `self.recv_d` has already been called back. -/
structure Conn where
  state : Int
  challenge : List Nat
  srare : Option Int
  outfOpen : Bool
  recvFired : Bool
deriving DecidableEq

/-- Observable effects of handling one inbound message: frames passed to
`sendString` (in order), whether `loseConnection` was called, bytes written
to `self.outf`, whether `self.recv_d` was called back, and whether an
uncaught Python exception was raised. -/
structure Output where
  sent : List (List Nat)
  closed : Bool
  written : List Nat
  recvDone : Bool
  err : Bool
deriving DecidableEq

/-- No observable effect. -/
def noOutput : Output := ⟨[], false, [], false, false⟩

/-- The handler a message is dispatched to, following the if/elif chain of
`FBADServerProtocol.stringReceived`. -/
inductive Route where
  | ignore
  | version
  | auth
  | command
  | filedata
  | violation
deriving DecidableEq

/-- The dispatch of `FBADServerProtocol.stringReceived`. -/
def route (st : Conn) : Route :=
  if st.state = STATE_IGNORE then Route.ignore
  else if st.state = STATE_WAIT_VERSION then Route.version
  else if st.state = STATE_AUTH then Route.auth
  else if st.state = STATE_READY then Route.command
  else if st.state = STATE_FILE_RECEIVE then Route.filedata
  else Route.violation

/-- `FBADServerProtocol.handle_protocol_violation`: close the connection,
send nothing. -/
def handle_protocol_violation (st : Conn) : Conn × Output :=
  (st, ⟨[], true, [], false, false⟩)

/-- `FBADServerProtocol.handle_version`.  On mismatch with `COM_VERSION`
send `"E"`, enter `IGNORE` and close; on match with a configured password
draw `AUTH_SEED_LENGTH` random bytes as the challenge, send `"A"` followed by
the challenge bytes and enter `AUTH`; on match without a password send `"O"`
and enter `READY`. -/
def handle_version (cfg : Config) (st : Conn) (msg : List Nat) : Conn × Output :=
  if msg ≠ COM_VERSION then
    ({ st with state := STATE_IGNORE }, ⟨[strE], true, [], false, false⟩)
  else
    match cfg.password with
    | some _ =>
        let challenge := cfg.urandom AUTH_SEED_LENGTH
        ({ st with challenge := challenge, state := STATE_AUTH },
         ⟨[byteA :: challenge], false, [], false, false⟩)
    | none =>
        ({ st with state := STATE_READY }, ⟨[strO], false, [], false, false⟩)

/-- `FBADServerProtocol.handle_auth`: compare the message with
`hashlib.sha256(self.challenge + self.factory.password).digest()`.
Equal: send `"O"`, go to `READY`.  Different: send `"F"`, enter `IGNORE`,
close.  With no configured password the concatenation raises (`err`);
this is unreachable because `AUTH` is only entered with a password. -/
def handle_auth (cfg : Config) (st : Conn) (msg : List Nat) : Conn × Output :=
  match cfg.password with
  | none => (st, ⟨[], false, [], false, true⟩)
  | some pw =>
      let res := sha256 (st.challenge ++ pw)
      if res = msg then
        ({ st with state := STATE_READY }, ⟨[strO], false, [], false, false⟩)
      else
        ({ st with state := STATE_IGNORE }, ⟨[strF], true, [], false, false⟩)

/-- The synchronous continuation of `handle_command` after `yield self.recv_d`
fires (lines 120-122 of `server.py`): the misspelled assignment
`self.srare = self.STATE_BUILDING` (which leaves `self.state` untouched),
then `self.outf.flush(); self.outf.close()`.  The build then runs
asynchronously. -/
def processTerminator (st : Conn) : Conn :=
  { st with srare := some STATE_BUILDING, outfOpen := false, recvFired := true }

/-- `FBADServerProtocol.handle_file_data`.  Empty message: return with no
effect.  Prefix byte 0x00: write the remaining bytes to `self.outf` (raises
if the file is already closed).  Prefix byte 0x01: write the remaining bytes
if nonempty, then `self.recv_d.callback(None)` (raises if already called),
which synchronously runs `processTerminator`.  Any other prefix byte:
protocol violation. -/
def handle_file_data (st : Conn) (msg : List Nat) : Conn × Output :=
  if msg.length = 0 then
    (st, noOutput)
  else
    let pre := msg.headD 0
    let data := msg.tail
    if pre = MSG_CONTINUE_BYTE then
      if st.outfOpen then (st, ⟨[], false, data, false, false⟩)
      else (st, ⟨[], false, [], false, true⟩)
    else if pre = MSG_END_BYTE then
      if data.length > 0 ∧ ¬ st.outfOpen then
        (st, ⟨[], false, [], false, true⟩)
      else if st.recvFired then
        (st, ⟨[], false, data, false, true⟩)
      else
        (processTerminator st, ⟨[], false, data, true, false⟩)
    else
      handle_protocol_violation st

end Server

/-! ## The client protocol FSM (`fbad/client.py`, `FBADClientProtocol`) -/

namespace Client

def STATE_IGNORE : Int := -2

def STATE_ERROR : Int := -1

def STATE_WAIT_VERSION_RESPONSE : Int := 0

def STATE_WAIT_AUTH_RESPONSE : Int := 1

def STATE_READY : Int := 2

def STATE_BUILDING : Int := 3

/-- Per-connection state of `FBADClientProtocol`: the FSM state, the
configured password, and whether a readiness deferred `self.d` was
supplied. -/
structure Conn where
  state : Int
  password : Option (List Nat)
  dSet : Bool
deriving DecidableEq

/-- Observable effects of handling one inbound message on the client:
frames passed to `sendString`, whether `loseConnection` was called, whether
`self.d` was called back or errbacked, and whether an uncaught exception was
raised. -/
structure Output where
  sent : List (List Nat)
  closed : Bool
  dCallback : Bool
  dErrback : Bool
  err : Bool
deriving DecidableEq

/-- No observable effect. -/
def noOutput : Output := ⟨[], false, false, false, false⟩

/-- The handler a message is dispatched to, following the if/elif chain of
`FBADClientProtocol.stringReceived`. -/
inductive Route where
  | ignore
  | versionResponse
  | authResponse
  | buildMessage
  | violation
deriving DecidableEq

/-- The dispatch of `FBADClientProtocol.stringReceived`. -/
def route (st : Conn) : Route :=
  if st.state = STATE_IGNORE then Route.ignore
  else if st.state = STATE_WAIT_VERSION_RESPONSE then Route.versionResponse
  else if st.state = STATE_WAIT_AUTH_RESPONSE then Route.authResponse
  else if st.state = STATE_BUILDING then Route.buildMessage
  else Route.violation

/-- `msg.startswith("A")`: the first byte is `"A"`. -/
def startswithA : List Nat → Bool
  | b :: _ => b == byteA
  | [] => false

/-- `FBADClientProtocol.handle_protocol_violation`: close the connection,
send nothing. -/
def handle_protocol_violation (st : Conn) : Conn × Output :=
  (st, ⟨[], true, false, false, false⟩)

/-- `FBADClientProtocol.handle_ready`: go to `READY`; call back `self.d`
when it was supplied. -/
def handle_ready (st : Conn) : Conn × Output :=
  ({ st with state := STATE_READY }, ⟨[], false, st.dSet, false, false⟩)

/-- `FBADClientProtocol.handle_auth_challenge`: with a password, send
`sha256(challenge + password)` and go to `WAIT_AUTH_RESPONSE`; without one,
errback `self.d` (when supplied) with `PasswordRequired`. -/
def handle_auth_challenge (st : Conn) (challenge : List Nat) : Conn × Output :=
  match st.password with
  | some pw =>
      ({ st with state := STATE_WAIT_AUTH_RESPONSE },
       ⟨[sha256 (challenge ++ pw)], false, false, false, false⟩)
  | none =>
      (st, ⟨[], false, false, st.dSet, false⟩)

/-- `FBADClientProtocol.handle_version_response`.  `"E"` calls
`self.handle_version_mismatch()`, a method that is defined nowhere in the
class, so the call raises `AttributeError` (`err`).  `"O"` calls
`handle_ready`.  A message starting with `"A"` is a protocol violation when
it carries no challenge byte and an auth challenge otherwise.  The method
has no final else branch: any other message falls through with no effect at
all. -/
def handle_version_response (st : Conn) (msg : List Nat) : Conn × Output :=
  if msg = strE then
    (st, ⟨[], false, false, false, true⟩)
  else if msg = strO then
    handle_ready st
  else if startswithA msg then
    if msg.length < 2 then handle_protocol_violation st
    else handle_auth_challenge st msg.tail
  else
    (st, noOutput)

end Client

/-! ## Server-side build orchestration (`fbad/project.py`, `Project`) -/

/-- The image loop of `Project.build_from_zip`: iterate the images in order;
when `only` is given, skip every image whose `name` is not in it; build each
remaining image and append its exit code.  The exit code each image's build
produces (the result of `image.build`, an external subprocess) is supplied
by `buildEC`. -/
def build_from_zip (images : List Image) (only : Option (List (List Char)))
    (buildEC : Image → Int) : List Int :=
  match images with
  | [] => []
  | img :: rest =>
      match only with
      | some o =>
          -- `if only is not None: if image.name not in only: continue`
          if img.name ∉ o then build_from_zip rest (some o) buildEC
          else buildEC img :: build_from_zip rest (some o) buildEC
      | none => buildEC img :: build_from_zip rest none buildEC

/-- Whether an image passes the `only` filter of `Project.build_from_zip`. -/
def passesFilter (only : Option (List (List Char))) (img : Image) : Prop :=
  match only with
  | some o => img.name ∈ o
  | none => True

instance (only : Option (List (List Char))) (img : Image) :
    Decidable (passesFilter only img) := by
  unfold passesFilter
  match only with
  | some o => exact inferInstanceAs (Decidable (img.name ∈ o))
  | none => exact inferInstanceAs (Decidable True)

/-! ## Client-side dispatch (`fbad/project.py`, module level) -/

/-- The round-robin loop of `_run_parallel_build`: starting from host index
`i`, pop each name in order, pair it with `hosts[i]` as a remote build with
`only=[name]`, then advance `i`, wrapping to 0 when it reaches
`len(hosts)`. -/
def parallelLoop (hosts : List (List Char)) : Nat → List (List Char) →
    List (List Char × List (List Char))
  | _, [] => []
  | i, name :: rest =>
      (hosts.getD i [], [name]) ::
        parallelLoop hosts (if i + 1 ≥ hosts.length then 0 else i + 1) rest

/-- The effective image-name list of `_run_parallel_build`: `only` when
given, else the names of all project images in order. -/
def effectiveNames (only : Option (List (List Char))) (images : List Image) :
    List (List Char) :=
  match only with
  | none => images.map Image.name
  | some o => o

/-- `_run_parallel_build`, up to starting the remote builds: the list of
(host, `only`-list) pairs of the remote builds started, in start order. -/
def run_parallel_build (hosts : List (List Char)) (only : Option (List (List Char)))
    (images : List Image) : List (List Char × List (List Char)) :=
  parallelLoop hosts 0 (effectiveNames only images)

/-- The result-merging loop shared by `_run_multi_build` and
`_run_parallel_build`: `exitcodes = []`, then `exitcodes += ecl` for each
gathered per-server exit-code list. -/
def gatherExitcodes (lists : List (List Int)) : List Int :=
  lists.foldl (fun acc ecl => acc ++ ecl) []

/-- Python's `max()` on a nonempty list (`max(exitcodes)`); the `[]` case is
unreachable under the emptiness guard. -/
def pymax : List Int → Int
  | [] => 0
  | x :: xs => xs.foldl max x

/-- The tail of `_run_multi_build` / `_run_parallel_build` /
`_run_single_build` after all exit-code lists are gathered: on an empty
concatenation print `"Error: no images built!"` and `sys.exit(1)`, else
`sys.exit(max(exitcodes))`.  Returns the process exit code and whether the
"no images built" error was emitted. -/
def finishDispatch (lists : List (List Int)) : Int × Bool :=
  let exitcodes := gatherExitcodes lists
  if exitcodes.length = 0 then (1, true)
  else (pymax exitcodes, false)

/-! ## Concrete test data for the authentication claims -/

/-- A concrete 16-byte challenge (all zero bytes). -/
def testChallenge : List Nat := List.replicate 16 0

/-- `testChallenge` with its first byte perturbed. -/
def testChallengeFlip : List Nat := 1 :: List.replicate 15 0

/-- The password `"pw"` as bytes. -/
def testPassword : List Nat := [112, 119]

/-- `testPassword` with its first byte perturbed. -/
def testPasswordFlip : List Nat := [113, 119]

/-- A concrete server configuration: password `"pw"`, all-zero randomness
source. -/
def testServerConfig : Server.Config := ⟨some testPassword, fun n => List.replicate n 0⟩

/-- A concrete server configuration with no password. -/
def testServerConfigNoPw : Server.Config := ⟨none, fun n => List.replicate n 0⟩

/-- A concrete fresh server connection in state `WAIT_VERSION`. -/
def testVersionConn : Server.Conn := ⟨Server.STATE_WAIT_VERSION, [], none, false, false⟩

/-- A concrete server connection in state `AUTH` holding `testChallenge`. -/
def testAuthConn : Server.Conn := ⟨Server.STATE_AUTH, testChallenge, none, false, false⟩

/-- A concrete server connection in state `FILE_RECEIVE` with the zip output
file open and the receive deferred not yet fired. -/
def testRecvConn : Server.Conn := ⟨Server.STATE_FILE_RECEIVE, [], none, true, false⟩

/-- A concrete client connection in state `WAIT_VERSION_RESPONSE` with no
password and a readiness deferred supplied. -/
def testClientConn : Client.Conn := ⟨Client.STATE_WAIT_VERSION_RESPONSE, none, true⟩

/-! ## Helper lemmas -/

/-- The head of a nonempty `dropWhile` result fails the predicate. -/
theorem dropWhile_head_false {α : Type} {q : α → Bool} {l : List α} {a : α} {t : List α}
    (h : List.dropWhile q l = a :: t) : q a = false := by
  induction l with
  | nil => simp [List.dropWhile] at h
  | cons x xs ih =>
      rw [List.dropWhile_cons] at h
      by_cases hx : q x
      · exact ih (by simpa [hx] using h)
      · obtain ⟨rfl, -⟩ := by simpa [hx] using h
        simpa using hx

/-- `dropWhile` is idempotent. -/
theorem dropWhile_idem {α : Type} (q : α → Bool) (l : List α) :
    List.dropWhile q (List.dropWhile q l) = List.dropWhile q l := by
  cases h : List.dropWhile q l with
  | nil => simp
  | cons a t =>
      rw [List.dropWhile_cons, dropWhile_head_false h]
      simp

/-- Trailing-slash trimming is idempotent. -/
theorem trimSlashes_idem (p : List Char) : trimSlashes (trimSlashes p) = trimSlashes p := by
  simp [trimSlashes, List.reverse_reverse, dropWhile_idem]

/-- The result-merge loop is list concatenation. -/
theorem foldl_append_eq_flatten (lists : List (List Int)) (acc : List Int) :
    lists.foldl (fun a e => a ++ e) acc = acc ++ lists.flatten := by
  induction lists generalizing acc with
  | nil => simp
  | cons l ls ih => simp [ih, List.append_assoc]

/-- The seed is a lower bound of `foldl max`. -/
theorem le_foldl_max (xs : List Int) : ∀ a : Int, a ≤ xs.foldl max a := by
  induction xs with
  | nil => simp
  | cons b bs ih =>
      intro a
      calc a ≤ max a b := le_max_left _ _
        _ ≤ bs.foldl max (max a b) := ih _

/-- `foldl max` returns its seed or a list element. -/
theorem foldl_max_mem (xs : List Int) : ∀ a : Int, xs.foldl max a = a ∨ xs.foldl max a ∈ xs := by
  induction xs with
  | nil => intro a; left; rfl
  | cons b bs ih =>
      intro a
      rcases ih (max a b) with h | h
      · rcases max_choice a b with hm | hm
        · left; simpa [List.foldl_cons, hm] using h
        · right
          have hb : List.foldl max a (b :: bs) = b := by
            simpa [List.foldl_cons, hm] using h
          rw [hb]
          exact List.mem_cons_self _ _
      · right
        have hb : List.foldl max a (b :: bs) ∈ bs := by
          simpa [List.foldl_cons] using h
        exact List.mem_cons_of_mem _ hb

/-- Every list element is bounded by `foldl max`. -/
theorem mem_le_foldl_max (xs : List Int) : ∀ (a y : Int), y ∈ xs → y ≤ xs.foldl max a := by
  induction xs with
  | nil => intro a y h; cases h
  | cons b bs ih =>
      intro a y h
      rcases List.mem_cons.mp h with rfl | h
      · calc y ≤ max a y := le_max_right _ _
          _ ≤ bs.foldl max (max a y) := le_foldl_max _ _
      · exact ih _ y h

/-! ## Sanity checks of the SHA-256 embedding (FIPS 180-4 test vectors) -/

/-- SHA-256 of the empty byte string. -/
theorem sha256_fips_empty : sha256 [] =
    [227, 176, 196, 66, 152, 252, 28, 20, 154, 251, 244, 200, 153, 111, 185, 36,
     39, 174, 65, 228, 100, 155, 147, 76, 164, 149, 153, 27, 120, 82, 184, 85] := by
  decide

/-- SHA-256 of the three bytes `"abc"`. -/
theorem sha256_fips_abc : sha256 [97, 98, 99] =
    [186, 120, 22, 191, 143, 1, 207, 234, 65, 65, 64, 222, 93, 174, 34, 35,
     176, 3, 97, 163, 150, 23, 122, 156, 180, 16, 255, 97, 242, 0, 21, 173] := by
  decide


/-! ## Claim theorems -/

/-- C1: In state `AUTH` with a stored 16-byte challenge and a configured
password, a received message is accepted if and only if it equals the
SHA-256 digest of the challenge bytes concatenated with the password bytes;
on acceptance the server sends `"O"` and moves to `READY`, and on any other
message it sends `"F"`, enters `IGNORE` and closes the connection.  The
final two conjuncts exhibit that a digest computed from an input perturbed
in a single byte of the challenge or of the password differs from the
accepted digest, so such a response is rejected. -/
theorem auth_accept_iff_digest (cfg : Server.Config) (st : Server.Conn) (pw msg : List Nat)
    (hpw : cfg.password = some pw) (hst : st.state = Server.STATE_AUTH)
    (hch : st.challenge.length = 16) :
    Server.route st = Server.Route.auth ∧
    (msg = sha256 (st.challenge ++ pw) →
      Server.handle_auth cfg st msg =
        ({ st with state := Server.STATE_READY }, ⟨[strO], false, [], false, false⟩)) ∧
    (msg ≠ sha256 (st.challenge ++ pw) →
      Server.handle_auth cfg st msg =
        ({ st with state := Server.STATE_IGNORE }, ⟨[strF], true, [], false, false⟩)) ∧
    ((Server.handle_auth cfg st msg).2.sent = [strO] ↔ msg = sha256 (st.challenge ++ pw)) ∧
    sha256 (testChallengeFlip ++ testPassword) ≠ sha256 (testChallenge ++ testPassword) ∧
    sha256 (testChallenge ++ testPasswordFlip) ≠ sha256 (testChallenge ++ testPassword) := by
  refine ⟨?_, ?_, ?_, ?_, ?_, ?_⟩
  · simp [Server.route, hst, Server.STATE_AUTH, Server.STATE_IGNORE, Server.STATE_WAIT_VERSION]
  · intro h
    simp [Server.handle_auth, hpw, h]
  · intro h
    simp [Server.handle_auth, hpw]
    intro h'
    exact absurd h'.symm h
  · constructor
    · intro h
      by_contra hne
      simp [Server.handle_auth, hpw, Ne.symm hne, strF, strO] at h
    · intro h
      simp [Server.handle_auth, hpw, h]
  · decide
  · decide

/-- Witness for the C1 theorem at a concrete configuration: password `"pw"`,
all-zero 16-byte challenge, and the correct digest as the received
message. -/
theorem auth_accept_iff_digest_witness :
    testServerConfig.password = some testPassword ∧
    testAuthConn.state = Server.STATE_AUTH ∧
    testAuthConn.challenge.length = 16 ∧
    (Server.route testAuthConn = Server.Route.auth ∧
     (sha256 (testChallenge ++ testPassword) = sha256 (testAuthConn.challenge ++ testPassword) →
       Server.handle_auth testServerConfig testAuthConn (sha256 (testChallenge ++ testPassword)) =
         ({ testAuthConn with state := Server.STATE_READY }, ⟨[strO], false, [], false, false⟩)) ∧
     (sha256 (testChallenge ++ testPassword) ≠ sha256 (testAuthConn.challenge ++ testPassword) →
       Server.handle_auth testServerConfig testAuthConn (sha256 (testChallenge ++ testPassword)) =
         ({ testAuthConn with state := Server.STATE_IGNORE }, ⟨[strF], true, [], false, false⟩)) ∧
     ((Server.handle_auth testServerConfig testAuthConn
          (sha256 (testChallenge ++ testPassword))).2.sent = [strO] ↔
       sha256 (testChallenge ++ testPassword) = sha256 (testAuthConn.challenge ++ testPassword)) ∧
     sha256 (testChallengeFlip ++ testPassword) ≠ sha256 (testChallenge ++ testPassword) ∧
     sha256 (testChallenge ++ testPasswordFlip) ≠ sha256 (testChallenge ++ testPassword)) :=
  ⟨rfl, rfl, by decide,
   auth_accept_iff_digest testServerConfig testAuthConn testPassword
     (sha256 (testChallenge ++ testPassword)) rfl rfl (by decide)⟩

/-- C5: In initial state `WAIT_VERSION`, the first received message is
compared with the literal `"0.2"`: on mismatch the server replies `"E"`,
enters `IGNORE` and closes; on match with no password configured it replies
`"O"` and enters `READY`; on match with a password configured it draws 16
fresh random bytes as the challenge, replies with the single frame `"A"`
followed by the raw challenge bytes, and enters `AUTH`. -/
theorem version_negotiation (cfg : Server.Config) (st : Server.Conn) (msg : List Nat)
    (hst : st.state = Server.STATE_WAIT_VERSION)
    (hur : ∀ n, (cfg.urandom n).length = n) :
    Server.route st = Server.Route.version ∧
    (msg ≠ COM_VERSION →
      Server.handle_version cfg st msg =
        ({ st with state := Server.STATE_IGNORE }, ⟨[strE], true, [], false, false⟩)) ∧
    (msg = COM_VERSION → cfg.password = none →
      Server.handle_version cfg st msg =
        ({ st with state := Server.STATE_READY }, ⟨[strO], false, [], false, false⟩)) ∧
    (msg = COM_VERSION → ∀ pw, cfg.password = some pw →
      Server.handle_version cfg st msg =
        ({ st with challenge := cfg.urandom AUTH_SEED_LENGTH, state := Server.STATE_AUTH },
         ⟨[byteA :: cfg.urandom AUTH_SEED_LENGTH], false, [], false, false⟩) ∧
      (cfg.urandom AUTH_SEED_LENGTH).length = 16) := by
  refine ⟨?_, ?_, ?_, ?_⟩
  · simp [Server.route, hst, Server.STATE_WAIT_VERSION, Server.STATE_IGNORE]
  · intro h
    simp [Server.handle_version, h]
  · intro h hpw
    simp [Server.handle_version, h, hpw]
  · intro h pw hpw
    refine ⟨?_, hur AUTH_SEED_LENGTH⟩
    simp [Server.handle_version, h, hpw]

/-- Witness for the C5 theorem: a fresh connection against the
password-configured test configuration, receiving the version string
`"0.2"`. -/
theorem version_negotiation_witness :
    testVersionConn.state = Server.STATE_WAIT_VERSION ∧
    (∀ n, (testServerConfig.urandom n).length = n) ∧
    (Server.route testVersionConn = Server.Route.version ∧
     (COM_VERSION ≠ COM_VERSION →
       Server.handle_version testServerConfig testVersionConn COM_VERSION =
         ({ testVersionConn with state := Server.STATE_IGNORE }, ⟨[strE], true, [], false, false⟩)) ∧
     (COM_VERSION = COM_VERSION → testServerConfig.password = none →
       Server.handle_version testServerConfig testVersionConn COM_VERSION =
         ({ testVersionConn with state := Server.STATE_READY }, ⟨[strO], false, [], false, false⟩)) ∧
     (COM_VERSION = COM_VERSION → ∀ pw, testServerConfig.password = some pw →
       Server.handle_version testServerConfig testVersionConn COM_VERSION =
         ({ testVersionConn with
             challenge := testServerConfig.urandom AUTH_SEED_LENGTH,
             state := Server.STATE_AUTH },
          ⟨[byteA :: testServerConfig.urandom AUTH_SEED_LENGTH], false, [], false, false⟩) ∧
       (testServerConfig.urandom AUTH_SEED_LENGTH).length = 16)) :=
  ⟨rfl, fun n => List.length_replicate n 0,
   version_negotiation testServerConfig testVersionConn COM_VERSION rfl
     (fun n => List.length_replicate n 0)⟩

/-- C2 (code bug): after the file-receive terminator frame is processed, the
coroutine executes the misspelled assignment `self.srare = self.STATE_BUILDING`
instead of updating `self.state`, so during the build the connection remains
in `FILE_RECEIVE`: the next inbound message is dispatched to
`handle_file_data` rather than treated as a protocol violation, and a data
frame raises on the closed zip file without any call to `loseConnection`. -/
theorem building_message_not_violation (st : Server.Conn)
    (hst : st.state = Server.STATE_FILE_RECEIVE)
    (hopen : st.outfOpen = true) (hrf : st.recvFired = false) :
    (Server.handle_file_data st [MSG_END_BYTE]).2.recvDone = true ∧
    (Server.handle_file_data st [MSG_END_BYTE]).1.state = Server.STATE_FILE_RECEIVE ∧
    (Server.handle_file_data st [MSG_END_BYTE]).1.state ≠ Server.STATE_BUILDING ∧
    (Server.handle_file_data st [MSG_END_BYTE]).1.srare = some Server.STATE_BUILDING ∧
    Server.route (Server.handle_file_data st [MSG_END_BYTE]).1 = Server.Route.filedata ∧
    (Server.handle_file_data (Server.handle_file_data st [MSG_END_BYTE]).1
        [MSG_CONTINUE_BYTE, 97]).2.closed = false ∧
    (Server.handle_file_data (Server.handle_file_data st [MSG_END_BYTE]).1
        [MSG_CONTINUE_BYTE, 97]).2.err = true := by
  have hstep : Server.handle_file_data st [MSG_END_BYTE] =
      (Server.processTerminator st, ⟨[], false, [], true, false⟩) := by
    simp [Server.handle_file_data, MSG_END_BYTE, MSG_CONTINUE_BYTE, hopen, hrf, Server.noOutput]
  rw [hstep]
  refine ⟨rfl, ?_, ?_, rfl, ?_, ?_, ?_⟩
  · simp [Server.processTerminator, hst]
  · simp [Server.processTerminator, hst, Server.STATE_FILE_RECEIVE, Server.STATE_BUILDING]
  · simp [Server.route, Server.processTerminator, hst, Server.STATE_FILE_RECEIVE,
      Server.STATE_IGNORE, Server.STATE_WAIT_VERSION, Server.STATE_AUTH, Server.STATE_READY]
  · simp [Server.handle_file_data, Server.processTerminator, MSG_CONTINUE_BYTE]
  · simp [Server.handle_file_data, Server.processTerminator, MSG_CONTINUE_BYTE]

/-- Witness for the C2 theorem at a concrete `FILE_RECEIVE` connection. -/
theorem building_message_not_violation_witness :
    testRecvConn.state = Server.STATE_FILE_RECEIVE ∧
    testRecvConn.outfOpen = true ∧
    testRecvConn.recvFired = false ∧
    ((Server.handle_file_data testRecvConn [MSG_END_BYTE]).2.recvDone = true ∧
     (Server.handle_file_data testRecvConn [MSG_END_BYTE]).1.state = Server.STATE_FILE_RECEIVE ∧
     (Server.handle_file_data testRecvConn [MSG_END_BYTE]).1.state ≠ Server.STATE_BUILDING ∧
     (Server.handle_file_data testRecvConn [MSG_END_BYTE]).1.srare = some Server.STATE_BUILDING ∧
     Server.route (Server.handle_file_data testRecvConn [MSG_END_BYTE]).1 =
       Server.Route.filedata ∧
     (Server.handle_file_data (Server.handle_file_data testRecvConn [MSG_END_BYTE]).1
         [MSG_CONTINUE_BYTE, 97]).2.closed = false ∧
     (Server.handle_file_data (Server.handle_file_data testRecvConn [MSG_END_BYTE]).1
         [MSG_CONTINUE_BYTE, 97]).2.err = true) :=
  ⟨rfl, rfl, rfl, building_message_not_violation testRecvConn rfl rfl rfl⟩

/-- C10: in state `FILE_RECEIVE` a zero-length frame is silently ignored:
nothing is written, the receive is not completed, the state is unchanged and
the connection stays open — it is not treated as a protocol violation. -/
theorem empty_file_frame_ignored (st : Server.Conn)
    (hst : st.state = Server.STATE_FILE_RECEIVE) :
    Server.route st = Server.Route.filedata ∧
    Server.handle_file_data st [] = (st, Server.noOutput) := by
  constructor
  · simp [Server.route, hst, Server.STATE_FILE_RECEIVE, Server.STATE_IGNORE,
      Server.STATE_WAIT_VERSION, Server.STATE_AUTH, Server.STATE_READY]
  · simp [Server.handle_file_data]

/-- Witness for the C10 theorem at a concrete `FILE_RECEIVE` connection. -/
theorem empty_file_frame_ignored_witness :
    testRecvConn.state = Server.STATE_FILE_RECEIVE ∧
    (Server.route testRecvConn = Server.Route.filedata ∧
     Server.handle_file_data testRecvConn [] = (testRecvConn, Server.noOutput)) :=
  ⟨rfl, empty_file_frame_ignored testRecvConn rfl⟩

/-- C8 counterexample: in state `WAIT_VERSION_RESPONSE` the message `"X"`
(byte 88) is unexpected — it is not `"E"`, not `"O"`, and does not start
with `"A"` — yet `handle_version_response` falls through its if/elif chain
with no effect at all: the connection is not closed and nothing changes, so
the message is not handled as a protocol violation. -/
theorem unexpected_version_response_counterexample :
    ([88] ≠ strE ∧ [88] ≠ strO ∧ Client.startswithA [88] = false) ∧
    Client.handle_version_response testClientConn [88] = (testClientConn, Client.noOutput) ∧
    (Client.handle_version_response testClientConn [88]).2.closed = false ∧
    (Client.handle_version_response testClientConn [88]).1 = testClientConn := by
  decide

/-- C8 amended: in state `WAIT_VERSION_RESPONSE`, only a message that starts
with `"A"` but carries no challenge byte is handled as a protocol violation
by closing the connection silently; a message that is not `"E"`, not `"O"`
and does not start with `"A"` is silently dropped with no effect. -/
theorem unexpected_version_response_amended (st : Client.Conn) (msg : List Nat)
    (hst : st.state = Client.STATE_WAIT_VERSION_RESPONSE) :
    Client.route st = Client.Route.versionResponse ∧
    (msg ≠ strE → msg ≠ strO → Client.startswithA msg = false →
      Client.handle_version_response st msg = (st, Client.noOutput)) ∧
    (Client.startswithA msg = true → msg.length < 2 →
      Client.handle_version_response st msg = (st, ⟨[], true, false, false, false⟩)) := by
  refine ⟨?_, ?_, ?_⟩
  · simp [Client.route, hst, Client.STATE_WAIT_VERSION_RESPONSE, Client.STATE_IGNORE]
  · intro hE hO hA
    simp [Client.handle_version_response, hE, hO, hA]
  · intro hA hlen
    match msg, hA with
    | b :: rest, hA =>
        have hb : b = byteA := by simpa [Client.startswithA] using hA
        have hrest : rest = [] := by
          cases rest with
          | nil => rfl
          | cons x xs => simp at hlen; omega
        subst hb
        subst hrest
        simp [Client.handle_version_response, Client.handle_protocol_violation,
          strE, strO, byteA, Client.startswithA]

/-- Witness for the C8 amended theorem: the concrete unexpected message
`"X"` is dropped and the bare `"A"` frame closes the connection. -/
theorem unexpected_version_response_amended_witness :
    testClientConn.state = Client.STATE_WAIT_VERSION_RESPONSE ∧
    (Client.route testClientConn = Client.Route.versionResponse ∧
     ([88] ≠ strE → [88] ≠ strO → Client.startswithA [88] = false →
       Client.handle_version_response testClientConn [88] = (testClientConn, Client.noOutput)) ∧
     (Client.startswithA [88] = true → ([88] : List Nat).length < 2 →
       Client.handle_version_response testClientConn [88] =
         (testClientConn, ⟨[], true, false, false, false⟩))) :=
  ⟨rfl, unexpected_version_response_amended testClientConn [88] rfl⟩

/-- C4: deserializing the serialized form of any constructed `Image` yields
an image equal in every field: `Image.loadus (Image.dumpus i) = i` for every
image `i` produced by the constructor, including `preexec_command`. -/
theorem image_roundtrip (path : List Char) (name tag : Option (List Char))
    (dockerfile : List Char) (buildpath : Option (List Char))
    (pec : Option (List (List Char))) :
    Image.loadus (Image.dumpus (Image.init path name tag dockerfile buildpath pec)) =
      Image.init path name tag dockerfile buildpath pec := by
  simp [Image.loadus, Image.dumpus, Image.init, trimSlashes_idem]

/-- C9 counterexample: for the all-slash path argument `"///"` (with every
other constructor argument defaulted), the trimmed `path` and the derived
`name` of the constructed image are both empty, violating the claimed
invariant. -/
theorem image_invariant_counterexample :
    (Image.init ['/', '/', '/'] none none
        ['D', 'o', 'c', 'k', 'e', 'r', 'f', 'i', 'l', 'e'] none none).path = [] ∧
    (Image.init ['/', '/', '/'] none none
        ['D', 'o', 'c', 'k', 'e', 'r', 'f', 'i', 'l', 'e'] none none).name = [] := by
  decide

/-- C9 amended: the constructor guarantees the invariant only for path
arguments containing at least one non-slash character: then the trimmed
`path` is non-empty and the defaulted `name` is non-empty.  (For empty or
all-slash path arguments both are empty.) -/
theorem image_invariant_amended (p dockerfile : List Char)
    (h : ∃ c ∈ p, (c == '/') = false) :
    (Image.init p none none dockerfile none none).path ≠ [] ∧
    (Image.init p none none dockerfile none none).name ≠ [] := by
  have hne : p.reverse.dropWhile (fun c => c == '/') ≠ [] := by
    intro h0
    obtain ⟨c, hc, hcf⟩ := h
    have := List.dropWhile_eq_nil_iff.mp h0 c (List.mem_reverse.mpr hc)
    simp [this] at hcf
  cases hD : p.reverse.dropWhile (fun c => c == '/') with
  | nil => exact absurd hD hne
  | cons a t =>
      have ha : (a == '/') = false :=
        @dropWhile_head_false Char (fun c => c == '/') p.reverse a t hD
      constructor
      · simp [Image.init, trimSlashes, hD]
      · simp [Image.init, basename, trimSlashes, hD, List.takeWhile_cons, ha]

/-- Witness for the C9 amended theorem at the concrete path `"a/"`. -/
theorem image_invariant_amended_witness :
    (∃ c ∈ ['a', '/'], (c == '/') = false) ∧
    ((Image.init ['a', '/'] none none
        ['D', 'o', 'c', 'k', 'e', 'r', 'f', 'i', 'l', 'e'] none none).path ≠ [] ∧
     (Image.init ['a', '/'] none none
        ['D', 'o', 'c', 'k', 'e', 'r', 'f', 'i', 'l', 'e'] none none).name ≠ []) :=
  ⟨by decide, image_invariant_amended ['a', '/']
    ['D', 'o', 'c', 'k', 'e', 'r', 'f', 'i', 'l', 'e'] (by decide)⟩

/-- C3: the exit-code vector of the server-side build has exactly one entry
per image whose name passes the `only` filter, in the order the images
appear in the project's image list: it equals the map of the per-image exit
code over the filtered image list, and in particular its length is the
number of images passing the filter.  Filtered-out images contribute no
entry. -/
theorem build_exitcode_vector (images : List Image) (only : Option (List (List Char)))
    (buildEC : Image → Int) :
    build_from_zip images only buildEC =
      (images.filter (fun i => decide (passesFilter only i))).map buildEC ∧
    (build_from_zip images only buildEC).length =
      (images.filter (fun i => decide (passesFilter only i))).length := by
  have main : build_from_zip images only buildEC =
      (images.filter (fun i => decide (passesFilter only i))).map buildEC := by
    induction images with
    | nil => cases only <;> simp [build_from_zip]
    | cons img rest ih =>
        cases only with
        | none => simp [build_from_zip, passesFilter, List.filter_cons, ih]
        | some o =>
            by_cases hm : img.name ∈ o
            · simp [build_from_zip, passesFilter, hm, List.filter_cons, ih]
            · simp [build_from_zip, passesFilter, hm, List.filter_cons, ih]
  exact ⟨main, by rw [main, List.length_map]⟩

/-- C6 helper: starting the round-robin loop of `_run_parallel_build` at
host index `i < N` starts one build per name, in order, assigning the `j`-th
remaining name to host `(i + j) mod N` with `only` equal to the singleton of
that name. -/
theorem parallelLoop_assignment (hosts : List (List Char)) (names : List (List Char)) :
    ∀ i : Nat, i < hosts.length →
      (parallelLoop hosts i names).length = names.length ∧
      ∀ j : Nat, j < names.length →
        (parallelLoop hosts i names).getD j ([], []) =
          (hosts.getD ((i + j) % hosts.length) [], [names.getD j []]) := by
  induction names with
  | nil =>
      intro i hi
      exact ⟨rfl, fun j hj => by cases hj⟩
  | cons name rest ih =>
      intro i hi
      have hN : 0 < hosts.length := Nat.lt_of_le_of_lt (Nat.zero_le i) hi
      set i2 := if i + 1 ≥ hosts.length then 0 else i + 1 with hi2def
      have hi2 : i2 < hosts.length := by
        rw [hi2def]
        split
        · exact hN
        · omega
      obtain ⟨ihlen, ihget⟩ := ih i2 hi2
      constructor
      · simp [parallelLoop, ihlen]
      · intro j hj
        cases j with
        | zero =>
            simp [parallelLoop, Nat.mod_eq_of_lt hi]
        | succ k =>
            have hk : k < rest.length := by simpa using hj
            have hmod : (i2 + k) % hosts.length = (i + (k + 1)) % hosts.length := by
              rw [hi2def]
              by_cases hge : i + 1 ≥ hosts.length
              · have hieq : i + 1 = hosts.length := by omega
                simp only [hge, if_pos]
                have : i + (k + 1) = hosts.length + k := by omega
                rw [this, Nat.add_mod_left, Nat.zero_add]
              · simp only [hge, if_neg, not_false_iff]
                congr 1
                omega
            have := ihget k hk
            simpa [parallelLoop, hmod] using this

/-- C6: in partition mode, with a nonempty server list and the effective
image-name list (the `only` list if given, else the names of all project
images in order), exactly one remote build is started per name, in order,
and the `j`-th name (0-based) is assigned to server `j mod N` with
`only` equal to the singleton list of that name. -/
theorem parallel_partition (hosts : List (List Char)) (only : Option (List (List Char)))
    (images : List Image) (j : Nat) (hN : hosts ≠ [])
    (hj : j < (effectiveNames only images).length) :
    (run_parallel_build hosts only images).length = (effectiveNames only images).length ∧
    (run_parallel_build hosts only images).getD j ([], []) =
      (hosts.getD (j % hosts.length) [], [(effectiveNames only images).getD j []]) := by
  have h0 : 0 < hosts.length := List.length_pos.mpr hN
  obtain ⟨hlen, hget⟩ := parallelLoop_assignment hosts (effectiveNames only images) 0 h0
  refine ⟨hlen, ?_⟩
  have := hget j hj
  simpa [run_parallel_build] using this

/-- Witness for the C6 theorem: two servers, three images named `"a"`,
`"b"`, `"c"`, no `only` filter; the third name goes to server `2 mod 2 = 0`. -/
theorem parallel_partition_witness :
    ((['s', '0'] :: ['s', '1'] :: []) ≠ ([] : List (List Char)) ∧
     2 < (effectiveNames none
       [Image.init ['a'] none none ['D'] none none,
        Image.init ['b'] none none ['D'] none none,
        Image.init ['c'] none none ['D'] none none]).length) ∧
    ((run_parallel_build (['s', '0'] :: ['s', '1'] :: []) none
        [Image.init ['a'] none none ['D'] none none,
         Image.init ['b'] none none ['D'] none none,
         Image.init ['c'] none none ['D'] none none]).length =
      (effectiveNames none
        [Image.init ['a'] none none ['D'] none none,
         Image.init ['b'] none none ['D'] none none,
         Image.init ['c'] none none ['D'] none none]).length ∧
     (run_parallel_build (['s', '0'] :: ['s', '1'] :: []) none
        [Image.init ['a'] none none ['D'] none none,
         Image.init ['b'] none none ['D'] none none,
         Image.init ['c'] none none ['D'] none none]).getD 2 ([], []) =
      ((['s', '0'] :: ['s', '1'] :: []).getD (2 % (['s', '0'] :: ['s', '1'] :: []).length) [],
       [(effectiveNames none
          [Image.init ['a'] none none ['D'] none none,
           Image.init ['b'] none none ['D'] none none,
           Image.init ['c'] none none ['D'] none none]).getD 2 []])) :=
  ⟨⟨by decide, by decide⟩,
   parallel_partition (['s', '0'] :: ['s', '1'] :: []) none
     [Image.init ['a'] none none ['D'] none none,
      Image.init ['b'] none none ['D'] none none,
      Image.init ['c'] none none ['D'] none none] 2 (by decide) (by decide)⟩

/-- C7: once all per-server exit-code vectors are gathered, the merge loop
concatenates them in order; if the concatenated vector is empty the process
reports "no images built" and exits with code 1, otherwise it exits with the
maximum exit code occurring in the vector (an element of the vector that
bounds every entry) and reports no error. -/
theorem dispatch_exit_code (lists : List (List Int)) :
    gatherExitcodes lists = lists.flatten ∧
    (lists.flatten = [] → finishDispatch lists = (1, true)) ∧
    (lists.flatten ≠ [] →
      (finishDispatch lists).2 = false ∧
      (finishDispatch lists).1 ∈ lists.flatten ∧
      ∀ x ∈ lists.flatten, x ≤ (finishDispatch lists).1) := by
  have hgather : gatherExitcodes lists = lists.flatten := by
    simpa using foldl_append_eq_flatten lists []
  refine ⟨hgather, ?_, ?_⟩
  · intro hnil
    simp [finishDispatch, hgather, hnil]
  · intro hne
    cases hflat : lists.flatten with
    | nil => exact absurd hflat hne
    | cons x xs =>
        have hfd : finishDispatch lists = (pymax (x :: xs), false) := by
          simp [finishDispatch, hgather, hflat]
        rw [hfd]
        refine ⟨rfl, ?_, ?_⟩
        · show pymax (x :: xs) ∈ x :: xs
          rcases foldl_max_mem xs x with h | h
          · rw [pymax, h]; exact List.mem_cons_self _ _
          · exact List.mem_cons_of_mem _ (by rw [pymax]; exact h)
        · intro y hy
          rcases List.mem_cons.mp hy with rfl | hy
          · exact le_foldl_max xs y
          · exact mem_le_foldl_max xs x y hy

/-- Witness for the C7 theorem at the concrete gathered results
`[[2, 5], [3]]` (nonempty case) and, through the emptiness hypothesis,
`[]` (empty case). -/
theorem dispatch_exit_code_witness :
    (([] : List (List Int)).flatten = [] → finishDispatch [] = (1, true)) ∧
    (([[2, 5], [3]] : List (List Int)).flatten ≠ [] →
      (finishDispatch [[2, 5], [3]]).2 = false ∧
      (finishDispatch [[2, 5], [3]]).1 ∈ ([[2, 5], [3]] : List (List Int)).flatten ∧
      ∀ x ∈ ([[2, 5], [3]] : List (List Int)).flatten, x ≤ (finishDispatch [[2, 5], [3]]).1) ∧
    finishDispatch ([] : List (List Int)) = (1, true) ∧
    (finishDispatch [[2, 5], [3]]).1 = 5 :=
  ⟨(dispatch_exit_code []).2.1,
   (dispatch_exit_code [[2, 5], [3]]).2.2,
   (dispatch_exit_code []).2.1 rfl,
   by decide⟩
